import Mathlib

/-!
Verification development for the `cli-kit` / `cli-primer` repository: a
dictionary-driven argument/config resolution pipeline for Node.js CLI
applications.

The JavaScript sources are shallowly embedded as pure Lean functions:

* `getArguments` / `matchDescriptor`  — src/cli-primer_modules/argTools.js
* `getConfigData` / `initializeConfig` — src/cli-primer_modules/configTools.js
* `mergeData` / `ensureSetup` / `populateTemplate` — src/cli-primer_modules/utils.js
* `wrapAndRun` — src/index.js

Modelling conventions:

* JavaScript objects are association lists (`List (String × JVal)`), with
  property read/write (`getProp`, `setProp`) following non-strict-mode
  semantics: reading a property of a non-object yields `undefined`
  (modelled as `none`), writing a property of a primitive is silently
  ignored.
* `JSON.parse` / `JSON.stringify(·, null, 2)` are modelled by executable
  fuel-based functions `jsonParse` / `jsonStringify`.  JSON numbers are
  restricted to integers (no claim depends on fractional literals).
* Regular-expression payloads: the repository only ever uses payloads of
  the anchored shapes `^--(a1|...|an)$` and `^--(a1|...|an)=(V)$` where
  the `ai` are literal alias tokens (no regex metacharacters, pipes or
  newlines) and `V` is either `.+` or an alternation of literal values.
  `RegexPayload` carries that structure directly; the source-text
  introspection the JavaScript performs (`payload.source.match(/\(([^)]+)\)/)`,
  `.split("|")`, `.includes("|")`) is embedded as the corresponding
  structural operations on the alias/value lists.
* The monitoring sink is modelled by returning the list of reported
  events; message texts are abbreviated forms of the source's
  interpolated template strings (claims only inspect event severities).
* Filesystem reads/writes and `path.*` are external collaborators; they
  are modelled by an explicit `FS` state, a `ReadResult` input and
  simplified slash-separated path helpers.
-/

namespace CliPrimer

/-- Severity of a monitoring event (`type` field of the info objects the
sources pass to `monitoringFn`). -/
inductive EvType where
  | info
  | warn
  | error
  | debug
deriving DecidableEq, Repr

/-- One event reported through the monitoring sink. -/
structure Event where
  type : EvType
  message : String
deriving DecidableEq, Repr

/-- JSON values (JavaScript data reachable from `JSON.parse`).  Numbers are
restricted to integers; no claim depends on fractional or exponent
literals. -/
inductive JVal where
  | jsNull
  | jsBool (flag : Bool)
  | jsInt (whole : Int)
  | jsStr (text : String)
  | jsList (items : List JVal)
  | jsMap (props : List (String × JVal))
deriving Repr

/-- JavaScript truthiness of a value. -/
def JVal.truthy : JVal → Bool
  | .jsNull => false
  | .jsBool b => b
  | .jsInt n => !(n == 0)
  | .jsStr s => !(s == "")
  | .jsList _ => true
  | .jsMap _ => true

/-- Truthiness of a possibly-`undefined` value (`none` = `undefined`). -/
def truthy : Option JVal → Bool
  | none => false
  | some j => j.truthy

/-- First-occurrence lookup in an association list (JavaScript property
read on a plain object, whose keys are unique). -/
def lookupKey {α : Type} : List (String × α) → String → Option α
  | [], _ => none
  | (k, v) :: t, key => if k = key then some v else lookupKey t key

/-- Property assignment on an association list: replaces the first
occurrence in place (JavaScript objects keep a key's insertion position
on re-assignment) or appends a fresh key at the end. -/
def setKey {α : Type} : List (String × α) → String → α → List (String × α)
  | [], k, v => [(k, v)]
  | (k', v') :: t, k, v => if k' = k then (k, v) :: t else (k', v') :: setKey t k v

/-- Property read, non-strict JavaScript semantics: reading a property of
anything that is not a plain object yields `undefined` (`none`).  Call
sites where the base may be `null`/`undefined` (a `TypeError` in
JavaScript) model the throw explicitly. -/
def getProp : JVal → String → Option JVal
  | .jsMap fields, k => lookupKey fields k
  | _, _ => none

/-- Property write, non-strict JavaScript semantics: assignment to a
primitive is silently ignored; assignment of a non-index property to an
array is invisible to `JSON.stringify`, so it is also modelled as a
no-op. -/
def setProp : JVal → String → JVal → JVal
  | .jsMap fields, k, v => .jsMap (setKey fields k v)
  | j, _, _ => j

/-- JavaScript `x || y` for a possibly-`undefined` `x`. -/
def jsOr (o : Option JVal) (d : JVal) : JVal :=
  match o with
  | some v => if v.truthy then v else d
  | none => d

/-- Strict equality `===` as used on profile names: primitives compare by
value; objects/arrays compare by reference, and the two operands always
come from different allocations at the compared call sites, so they are
never equal. -/
def jsStrictEq : JVal → JVal → Bool
  | .jsNull, .jsNull => true
  | .jsBool a, .jsBool b => a == b
  | .jsInt a, .jsInt b => a == b
  | .jsStr a, .jsStr b => a == b
  | _, _ => false

/-- `Object.entries`.  Plain objects list their fields, arrays list their
elements under stringified indices, strings list their characters;
other primitives have no own enumerable properties. -/
def jsEntries : JVal → List (String × JVal)
  | .jsMap fields => fields
  | .jsList elems => elems.enum.map (fun p => (toString p.1, p.2))
  | .jsStr s => s.data.enum.map (fun p => (toString p.1, .jsStr (String.mk [p.2])))
  | _ => []

/-- A settings mapping: canonical argument key to value. -/
abbrev Settings := List (String × JVal)

/-- The sub-pattern of a payload's second capturing group: either `.+`
(any non-empty value) or an alternation of literal values. -/
inductive ValueSpec where
  | any
  | enum (vals : List String)
deriving Repr

/-- Structured form of the repository's regex payloads
`^--(a1|...|an)$` (when `value? = none`, one capturing group) or
`^--(a1|...|an)=(V)$` (when `value? = some V`, two capturing groups).
The aliases are literal tokens; the first capturing group's source text
is their `"|"`-intercalation, so splitting that text on `"|"` recovers
`aliases` and its first alternative is `aliases.head`. -/
structure RegexPayload where
  aliases : List String
  value? : Option ValueSpec
deriving Repr

/-- A descriptor's `payload`: a literal string or a regex. -/
inductive Payload where
  | lit (s : String)
  | regex (p : RegexPayload)
deriving Repr

/-- An argument descriptor (`name`/`payload`/`doc`/`mandatory`). -/
structure Descriptor where
  name : String
  payload : Payload
  doc : String
  mandatory : Bool
deriving Repr

/-- `payload.source.includes("|")`: the textual source of the anchored
pattern contains a pipe iff the alias group or an enum value group lists
more than one alternative. -/
def sourceHasPipe (p : RegexPayload) : Bool :=
  decide (1 < p.aliases.length) ||
    (match p.value? with
     | some (.enum vs) => decide (1 < vs.length)
     | _ => false)

/-- Strips the characters a leading `pre` from `cs`, if `cs` starts with
`pre`; returns the remainder. -/
def chopLead : List Char → List Char → Option (List Char)
  | [], rest => some rest
  | _, [] => none
  | p :: ps, c :: cs => if p = c then chopLead ps cs else none

theorem chopLead_sound {ps cs r : List Char} (h : chopLead ps cs = some r) :
    cs = ps ++ r := by
  induction ps generalizing cs with
  | nil => simpa [chopLead] using h
  | cons p ps ih =>
    cases cs with
    | nil => simp [chopLead] at h
    | cons c cs =>
      by_cases hpc : p = c
      · simp [chopLead, hpc] at h
        simpa [hpc] using congrArg (c :: ·) (ih h)
      · simp [chopLead, hpc] at h

/-- Splits `tok` as `"--" ++ a ++ "=" ++ v`, returning `v`. -/
def splitEq (a tok : String) : Option String :=
  (chopLead ("--" ++ a ++ "=").data tok.data).map String.mk

/-- Whether a candidate value matches a payload's second capturing group
under the `$` anchor.  `.+` accepts any non-empty text without line
terminators (the `.` metacharacter does not cross newlines); an
alternation accepts exactly its listed literals. -/
def valueOK : ValueSpec → String → Bool
  | .any, v => !(v == "") && v.data.all (fun c => !(c == '\n') && !(c == '\r'))
  | .enum vs, v => vs.contains v

/-- Applying a regex payload to a token, returning the texts captured by
the first group (the matched alias) and, for two-group payloads, the
second group (the value).  Alternatives are tried left to right with
full-match backtracking, as the JavaScript regex engine does. -/
def regexMatch (p : RegexPayload) (tok : String) : Option (String × Option String) :=
  match p.value? with
  | none => (p.aliases.find? (fun a => tok == "--" ++ a)).map (fun a => (a, none))
  | some vs =>
    p.aliases.findSome? (fun a =>
      match splitEq a tok with
      | some v => if valueOK vs v then some (a, some v) else none
      | none => none)

/-- JavaScript `\w` (word character). -/
def isWordChar (c : Char) : Bool := c.isAlphanum || c == '_'

/-- `arg.replace(/^\W*\/, "")`: drop leading non-word characters. -/
def stripLeadingNonWord (s : String) : String :=
  String.mk (s.data.dropWhile (fun c => !isWordChar c))

/-- `match[2] || true`: a captured value, with an empty capture collapsing
to the flag value `true`. -/
def jsArgValue : Option String → JVal
  | some v => if v == "" then .jsBool true else .jsStr v
  | none => .jsBool true

/-- The matching step of `getArguments`' inner loop for one payload
(argTools.js lines 52-71): a string payload matches by equality and
stores `true` under the token stripped of leading non-word characters; a
regex payload stores `match[2] || true` under
`argNames.split("|").shift()`, the first alias listed in the first
capturing group's source text. -/
def matchDescriptor : Payload → String → Option (String × JVal)
  | .lit s, arg => if arg == s then some (stripLeadingNonWord arg, .jsBool true) else none
  | .regex p, arg =>
    (regexMatch p arg).map (fun av => (p.aliases.headD av.1, jsArgValue av.2))

/-- First descriptor in dictionary order whose payload matches the token,
with the resulting key/value pair. -/
def matchToken : List Descriptor → String → Option (String × JVal)
  | [], _ => none
  | d :: rest, arg =>
    match matchDescriptor d.payload arg with
    | some kv => some kv
    | none => matchToken rest arg

/-- The token loop of `getArguments` (argTools.js lines 48-79): empty
tokens are skipped; the first token matched by no descriptor aborts the
whole parse with `null` and an error event. -/
def gaGo (dictionary : List Descriptor) : List String → Settings → Option Settings × List Event
  | [], acc => (some acc, [])
  | arg :: rest, acc =>
    if arg == "" then gaGo dictionary rest acc
    else
      match matchToken dictionary arg with
      | some kv => gaGo dictionary rest (setKey acc kv.1 kv.2)
      | none => (none, [⟨.error, "Unknown argument: " ++ arg⟩])

/-- `getArguments(dictionary, defaults, ...)` over an explicit token list
(the source reads `process.argv.slice(2)`). -/
def getArguments (dictionary : List Descriptor) (defaults : Settings)
    (args : List String) : Option Settings × List Event :=
  gaGo dictionary args defaults

/-! ### JSON.parse / JSON.stringify (external platform collaborators) -/

/-- Drop leading JSON whitespace. -/
def eatWs : List Char → List Char
  | c :: more => if c = ' ' ∨ c = '\t' ∨ c = '\n' ∨ c = '\r' then eatWs more else c :: more
  | [] => []

/-- Numeric value of one hexadecimal digit, lower or upper case. -/
def nibble (c : Char) : Option Nat :=
  if '0' ≤ c ∧ c ≤ '9' then some (c.toNat - 48)
  else if 'a' ≤ c ∧ c ≤ 'f' then some (c.toNat - 87)
  else if 'A' ≤ c ∧ c ≤ 'F' then some (c.toNat - 55)
  else none

/-- The character denoted by a single-letter escape inside a JSON string
literal; anything unlisted makes `JSON.parse` throw. -/
def codeOf (c : Char) : Option Char :=
  if c = 'n' then some '\n'
  else if c = 't' then some '\t'
  else if c = 'r' then some '\r'
  else if c = 'b' then some '\x08'
  else if c = 'f' then some '\x0c'
  else if c = '"' ∨ c = '\\' ∨ c = '/' then some c
  else none

/-- Scan the body of a JSON string literal (the opening quote already
consumed): the decoded characters plus the input past the closing
quote.  Bare control characters are a parse error, as in `JSON.parse`. -/
def scanStr : List Char → Option (List Char × List Char)
  | [] => none
  | c :: more =>
    if c = '"' then some ([], more)
    else if c = '\\' then
      match more with
      | 'u' :: h1 :: h2 :: h3 :: h4 :: tail => do
        let a ← nibble h1
        let b ← nibble h2
        let c' ← nibble h3
        let d ← nibble h4
        let sp ← scanStr tail
        return (Char.ofNat (((a * 16 + b) * 16 + c') * 16 + d) :: sp.1, sp.2)
      | e :: tail => do
        let ec ← codeOf e
        let sp ← scanStr tail
        return (ec :: sp.1, sp.2)
      | [] => none
    else if c.toNat < 32 then none
    else do
      let sp ← scanStr more
      return (c :: sp.1, sp.2)

/-- Natural number denoted by a run of decimal digits. -/
def natFromDigits (run : List Char) : Nat :=
  run.foldl (fun acc d => 10 * acc + (d.toNat - 48)) 0

/-- Scan a JSON number.  The embedding restricts numbers to integer
literals: a fraction or an exponent makes the scan fail (no claim
involves non-integer values). -/
def scanNum (input : List Char) : Option (JVal × List Char) :=
  let signed := input.head? = some '-'
  let body := if signed then input.tail else input
  let split := body.span Char.isDigit
  if split.1 = [] then none
  else
    match split.2 with
    | '.' :: _ => none
    | 'e' :: _ => none
    | 'E' :: _ => none
    | past =>
      let magnitude : Int := Int.ofNat (natFromDigits split.1)
      some (.jsInt (if signed then -magnitude else magnitude), past)

mutual

/-- Fuel-driven scan of one JSON value. -/
def scanVal : Nat → List Char → Option (JVal × List Char)
  | 0, _ => none
  | budget + 1, input =>
    match input with
    | '"' :: more => (scanStr more).map (fun sp => (.jsStr (String.mk sp.1), sp.2))
    | '[' :: more =>
      (match eatWs more with
       | ']' :: past => some (.jsList [], past)
       | opened => (scanElems budget opened).map (fun ep => (.jsList ep.1, ep.2)))
    | '\x7b' :: more =>
      (match eatWs more with
       | '\x7d' :: past => some (.jsMap [], past)
       | opened => (scanPairs budget opened).map (fun pp => (.jsMap pp.1, pp.2)))
    | _ =>
      match chopLead ['n', 'u', 'l', 'l'] input with
      | some past => some (.jsNull, past)
      | none =>
        match chopLead ['t', 'r', 'u', 'e'] input with
        | some past => some (.jsBool true, past)
        | none =>
          match chopLead ['f', 'a', 'l', 's', 'e'] input with
          | some past => some (.jsBool false, past)
          | none => scanNum input

/-- Comma-separated array elements up to the closing bracket. -/
def scanElems : Nat → List Char → Option (List JVal × List Char)
  | 0, _ => none
  | budget + 1, input => do
    let vp ← scanVal budget input
    match eatWs vp.2 with
    | ',' :: more => do
      let rp ← scanElems budget (eatWs more)
      return (vp.1 :: rp.1, rp.2)
    | ']' :: past => return ([vp.1], past)
    | _ => none

/-- Comma-separated `"key": value` members up to the closing brace. -/
def scanPairs : Nat → List Char → Option (List (String × JVal) × List Char)
  | 0, _ => none
  | budget + 1, input =>
    match input with
    | '"' :: more => do
      let kp ← scanStr more
      match eatWs kp.2 with
      | ':' :: afterColon => do
        let vp ← scanVal budget (eatWs afterColon)
        match eatWs vp.2 with
        | ',' :: rest => do
          let rp ← scanPairs budget (eatWs rest)
          return ((String.mk kp.1, vp.1) :: rp.1, rp.2)
        | '\x7d' :: past => return ([(String.mk kp.1, vp.1)], past)
        | _ => none
      | _ => none
    | _ => none

end

/-- `JSON.parse`, modelled executably: exactly one value, surrounded by
optional whitespace; anything else throws, i.e. yields `none`. -/
def jsonParse (s : String) : Option JVal :=
  match scanVal (s.data.length + 1) (eatWs s.data) with
  | some (v, leftover) => if eatWs leftover = [] then some v else none
  | none => none

/-- Lower-case hexadecimal digit character. -/
def hexCh (d : Nat) : Char := if d ≤ 9 then Char.ofNat (48 + d) else Char.ofNat (87 + d)

/-- One character as it appears inside a written JSON string literal. -/
def quoteCh (c : Char) : String :=
  if c = '"' then "\\\""
  else if c = '\\' then "\\\\"
  else if c = '\n' then "\\n"
  else if c = '\t' then "\\t"
  else if c = '\r' then "\\r"
  else if c = '\x08' then "\\b"
  else if c = '\x0c' then "\\f"
  else if c.toNat < 32 then
    String.mk ['\\', 'u', '0', '0', hexCh (c.toNat / 16), hexCh (c.toNat % 16)]
  else String.mk [c]

/-- Render a string as a JSON string literal. -/
def quoteStr (s : String) : String :=
  "\"" ++ String.join (s.data.map quoteCh) ++ "\""

/-- An indentation margin of `n` spaces. -/
def pad (n : Nat) : String := String.mk (List.replicate n ' ')

/-- Join rendered pieces with a separator. -/
def glue (sep : String) : List String → String
  | [] => ""
  | [x] => x
  | x :: more => x ++ sep ++ glue sep more

/-- Fuel-driven pretty-printer implementing `JSON.stringify(value, null, 2)`. -/
def render : Nat → Nat → JVal → String
  | 0, _, _ => ""
  | _ + 1, _, .jsNull => "null"
  | _ + 1, _, .jsBool flag => if flag then "true" else "false"
  | _ + 1, _, .jsInt whole => toString whole
  | _ + 1, _, .jsStr text => quoteStr text
  | _ + 1, _, .jsList [] => "[]"
  | budget + 1, margin, .jsList (x :: xs) =>
    "[\n" ++
      glue ",\n" ((x :: xs).map (fun item => pad (margin + 2) ++ render budget (margin + 2) item)) ++
      "\n" ++ pad margin ++ "]"
  | _ + 1, _, .jsMap [] => "\x7b\x7d"
  | budget + 1, margin, .jsMap (f :: fs) =>
    "\x7b\n" ++
      glue ",\n" ((f :: fs).map
        (fun prop => pad (margin + 2) ++ quoteStr prop.1 ++ ": " ++ render budget (margin + 2) prop.2)) ++
      "\n" ++ pad margin ++ "\x7d"

mutual

/-- Executable bound on a value's nesting, used as pretty-printer fuel. -/
def JVal.weight : JVal → Nat
  | .jsList items => weightItems items + 1
  | .jsMap props => weightProps props + 1
  | _ => 1

/-- Combined weight of a list of values. -/
def weightItems : List JVal → Nat
  | [] => 0
  | x :: xs => JVal.weight x + weightItems xs + 1

/-- Combined weight of an object's member list. -/
def weightProps : List (String × JVal) → Nat
  | [] => 0
  | (_, v) :: fs => JVal.weight v + weightProps fs + 1

end

/-- `JSON.stringify(j, null, 2)`; `j.weight` strictly dominates the
nesting depth, so the fuel never runs out on the value itself. -/
def jsonStringify (j : JVal) : String := render j.weight 0 j

/-! ### getConfigData (configTools.js lines 73-152) -/

/-- Outcome of `fs.readFileSync` on the configuration file: the file's
text, a missing file (`error.code === "ENOENT"`), or some other I/O
failure. -/
inductive ReadResult where
  | content (s : String)
  | enoent
  | ioError
deriving Repr

/-- The descriptor lookup `getConfigData` performs for a profile key
(configTools.js lines 99-107): test the synthetic token `--key` against
the payload and, for regexes, additionally require the first captured
group to equal the key. -/
def keyMatchesPayload (key : String) : Payload → Bool
  | .lit s => s == "--" ++ key
  | .regex p =>
    match regexMatch p ("--" ++ key) with
    | some av => av.1 == key
    | none => false

/-- `typeof value === "string" && value.trim() === ""`. -/
def isBlankValue : JVal → Bool
  | .jsStr v => v.data.all Char.isWhitespace
  | _ => false

/-- Whether the matched payload triggers the enumerated-value check
(`payload instanceof RegExp && payload.source.includes("|")`). -/
def enumGate : Payload → Bool
  | .regex p => sourceHasPipe p
  | .lit _ => false

/-- `payload.source.match(/\(([^)]+)\)/)[1].split("|")`: contents of the
first capturing group of the source text — the alias list (not the
value enumeration). -/
def acceptedOf : Payload → List String
  | .regex p => p.aliases
  | .lit _ => []

/-- `acceptedValues.includes(value)` under `===`: only string values can
be contained in a list of string literals. -/
def valueInAccepted (value : JVal) (accepted : List String) : Bool :=
  match value with
  | .jsStr v => accepted.contains v
  | _ => false

/-- The settings filter loop of `getConfigData` (configTools.js lines
98-140): unknown keys, blank string values and enumerated-set misses
are skipped with an event; everything else is copied into the result. -/
def processSettings (dictionary : List Descriptor) :
    List (String × JVal) → Settings → Settings × List Event
  | [], acc => (acc, [])
  | (key, value) :: rest, acc =>
    match dictionary.find? (fun d => keyMatchesPayload key d.payload) with
    | none =>
      let r := processSettings dictionary rest acc
      (r.1, ⟨.warn, "Ignoring unknown setting."⟩ :: r.2)
    | some d =>
      if isBlankValue value then
        let r := processSettings dictionary rest acc
        (r.1, ⟨.debug, "Ignoring empty setting."⟩ :: r.2)
      else if enumGate d.payload && !valueInAccepted value (acceptedOf d.payload) then
        let r := processSettings dictionary rest acc
        (r.1, ⟨.warn, "Invalid value for setting."⟩ :: r.2)
      else
        processSettings dictionary rest (setKey acc key value)

/-- `configData.profiles.find((p) => p.name === profileName)`.  A `null`
array element makes the callback throw a `TypeError` (`null.name`),
caught by the function's outer handler — modelled as `Except.error`. -/
def findProfile : List JVal → JVal → Except Unit (Option JVal)
  | [], _ => .ok none
  | .jsNull :: _, _ => .error ()
  | e :: rest, pn =>
    match getProp e "name" with
    | some nm => if jsStrictEq nm pn then .ok (some e) else findProfile rest pn
    | none => findProfile rest pn

/-- `getConfigData(filePath, profileName, dictionary, monitoringFn)`.
The file read is supplied as a `ReadResult`; the returned pair is the
function's result (`null` = `none`) and the events reported through the
monitoring sink.  `profileName` is a `JVal` because `wrapAndRun` passes
a parsed argument value. -/
def getConfigData (file : ReadResult) (profileName : JVal)
    (dictionary : List Descriptor) : Option Settings × List Event :=
  match file with
  | .enoent => (none, [⟨.warn, "Error reading configuration file."⟩])
  | .ioError => (none, [⟨.error, "Error reading configuration file."⟩])
  | .content s =>
    match jsonParse s with
    | none => (none, [⟨.error, "Error reading configuration file."⟩])
    | some .jsNull => (none, [⟨.error, "Error reading configuration file."⟩])
    | some configData =>
      match getProp configData "profiles" with
      | some (.jsList profiles) =>
        (match findProfile profiles profileName with
         | .error _ => (none, [⟨.error, "Error reading configuration file."⟩])
         | .ok none =>
           (none, [⟨if jsStrictEq profileName (.jsStr "default") then .debug else .warn,
                    "Profile not found in configuration file."⟩])
         | .ok (some profile) =>
           let settings := jsOr (getProp profile "settings") (.jsMap [])
           let r := processSettings dictionary (jsEntries settings) []
           (some r.1, r.2))
      | _ => (none, [⟨.error, "Invalid configuration structure."⟩])

/-! ### populateTemplate (utils.js lines 395-409) -/

/-- Splits the input at the first `}}`, returning the characters before
it and the characters after it (the lazy `(.*?)` stops at the first
closing pair). -/
def splitAtClose : List Char → Option (List Char × List Char)
  | [] => none
  | '\x7d' :: '\x7d' :: rest => some ([], rest)
  | c :: rest => (splitAtClose rest).map (fun ka => (c :: ka.1, ka.2))

/-- The scan of `template.replace(/\x7b\x7b(.*?)\x7d\x7d/g, ...)`:
at each `\x7b\x7b`, the lazy dot-group runs to the first `\x7d\x7d`; it
cannot cross a line terminator, in which case the engine advances one
character and retries.  A matched placeholder is replaced by its data
value when the key is present, and kept verbatim otherwise (the source
also reports a warning then, but both of its call sites pass no
monitoring function, so no event is modelled). -/
def popGo (data : List (String × String)) : Nat → List Char → List Char
  | 0, cs => cs
  | _ + 1, [] => []
  | fuel + 1, c :: rest =>
    if c == '\x7b' && rest.head? == some '\x7b' then
      -- `rest` starts with the second opening brace; the placeholder body
      -- is sought in `rest.tail`, and a failed match advances one
      -- character, i.e. retries from `rest`.
      (match splitAtClose rest.tail with
       | some ka =>
         if ka.1.contains '\n' || ka.1.contains '\r' then
           '\x7b' :: popGo data fuel rest
         else
           match lookupKey data (String.mk ka.1) with
           | some v => v.data ++ popGo data fuel ka.2
           | none => '\x7b' :: '\x7b' :: (ka.1 ++ '\x7d' :: '\x7d' :: popGo data fuel ka.2)
       | none => '\x7b' :: popGo data fuel rest)
    else c :: popGo data fuel rest

/-- `populateTemplate(template, data)`. -/
def populateTemplate (template : String) (data : List (String × String)) : String :=
  String.mk (popGo data (template.data.length + 1) template.data)

/-! ### Filesystem model and ensureSetup (utils.js lines 245-292) -/

/-- Path segments split on `/`. -/
def chopSegs : List Char → List (List Char)
  | [] => [[]]
  | '/' :: rest => [] :: chopSegs rest
  | c :: rest =>
    match chopSegs rest with
    | s :: ss => (c :: s) :: ss
    | [] => [[c]]

/-- `path.dirname`, simplified to slash-separated relative paths. -/
def pathDirname (p : String) : String :=
  let segs := chopSegs p.data
  if segs.length ≤ 1 then "."
  else String.mk (List.intercalate ['/'] segs.dropLast)

/-- `path.basename`, simplified to slash-separated paths. -/
def pathBasename (p : String) : String :=
  String.mk ((chopSegs p.data).getLastD [])

/-- `path.join` of a directory and a relative entry. -/
def pathJoin (a b : String) : String :=
  if a == "" then b else a ++ "/" ++ b

/-- Filesystem state: file contents by path, plus the set of directories. -/
structure FS where
  files : List (String × String)
  dirs : List String
deriving Repr

/-- `fs.existsSync`. -/
def fsExists (fs : FS) (p : String) : Bool :=
  fs.dirs.contains p || (lookupKey fs.files p).isSome

/-- One entry of an `ensureSetup` blueprint's `content` array. -/
inductive BItem where
  | folder (path : String)
  | file (path : String) (template : String) (data : List (String × String))
deriving Repr

/-- The `path` property of a blueprint item. -/
def bItemPath : BItem → String
  | .folder p => p
  | .file p _ _ => p

/-- Insertion into a path-sorted list (the source sorts `content` with
`localeCompare`, modelled as code-point order). -/
def insertByPath (x : BItem) : List BItem → List BItem
  | [] => [x]
  | y :: ys => if bItemPath x ≤ bItemPath y then x :: y :: ys else y :: insertByPath x ys

/-- Sort blueprint content by path. -/
def sortContent : List BItem → List BItem
  | [] => []
  | x :: xs => insertByPath x (sortContent xs)

/-- Insertion sort for the returned `createdPaths`. -/
def insertStr (x : String) : List String → List String
  | [] => [x]
  | y :: ys => if x ≤ y then x :: y :: ys else y :: insertStr x ys

/-- `createdPaths.sort()`. -/
def sortStrings : List String → List String
  | [] => []
  | x :: xs => insertStr x (sortStrings xs)

/-- The item loop of `ensureSetup`.  `writeFails` is the oracle for a
`fs.writeFileSync` throw: the loop's surrounding `try`/`catch` then
reports one error event and stops, keeping the effects performed so
far. -/
def esGo (homeDir : String) (writeFails : Bool) :
    List BItem → FS → FS × List Event × List String
  | [], fs => (fs, [], [])
  | .folder p :: rest, fs =>
    let itemPath := pathJoin homeDir p
    if fsExists fs itemPath then esGo homeDir writeFails rest fs
    else
      let r := esGo homeDir writeFails rest ⟨fs.files, itemPath :: fs.dirs⟩
      (r.1, ⟨.info, "Created folder."⟩ :: r.2.1, itemPath :: r.2.2)
  | .file p tmpl data :: rest, fs =>
    let itemPath := pathJoin homeDir p
    let dir := pathDirname itemPath
    let mk := !fsExists fs dir
    let fs1 : FS := if mk then ⟨fs.files, dir :: fs.dirs⟩ else fs
    let evs1 : List Event := if mk then [⟨.info, "Created parent directory for file."⟩] else []
    let cps1 : List String := if mk then [dir] else []
    if writeFails then (fs1, evs1 ++ [⟨.error, "Error in ensureSetup."⟩], cps1)
    else
      let content := populateTemplate tmpl data
      let r := esGo homeDir writeFails rest ⟨setKey fs1.files itemPath content, fs1.dirs⟩
      (r.1, evs1 ++ ⟨.info, "Created file."⟩ :: r.2.1, cps1 ++ itemPath :: r.2.2)

/-- `ensureSetup(homeDir, bluePrint, monitoringFn)` over an explicit
filesystem state: returns the new state, the reported events, and the
sorted `createdPaths`. -/
def ensureSetup (homeDir : String) (content : List BItem) (fs : FS)
    (writeFails : Bool) : FS × List Event × List String :=
  let r := esGo homeDir writeFails (sortContent content) fs
  (r.1, r.2.1, sortStrings r.2.2)

/-! ### initializeConfig (configTools.js lines 183-290) -/

/-- The built-in `defaultConfigStructure`. -/
def defaultProfiles : JVal :=
  .jsList [.jsMap [("name", .jsStr "default_profile"),
              ("settings", .jsMap [("key_1", .jsStr "default_value_1"),
                                 ("key_2", .jsStr "default_value_2")])]]

/-- The built-in default configuration document. -/
def defaultConfigStructure : JVal := .jsMap [("profiles", defaultProfiles)]

/-- The per-profile repair of `initializeConfig` (configTools.js lines
237-254).  A `null` entry makes `profile.name` throw (`Except.error`);
any entry lacking a string `name` or a plain-object `settings` is
replaced by the `||`-coerced pair, with a warning. -/
def repairProfile : JVal → Except Unit (JVal × List Event)
  | .jsNull => .error ()
  | p =>
    let nameOk : Bool := match getProp p "name" with
      | some (.jsStr _) => true
      | _ => false
    let settingsOk : Bool := match getProp p "settings" with
      | some (.jsMap _) => true
      | _ => false
    if nameOk && settingsOk then .ok (p, [])
    else
      .ok (.jsMap [("name", jsOr (getProp p "name") (.jsStr "default_profile")),
                 ("settings", jsOr (getProp p "settings") (.jsMap []))],
           [⟨.warn, "Invalid profile detected."⟩])

/-- `profiles.map(repair)`, short-circuiting on a thrown `TypeError`. -/
def repairProfiles : List JVal → Except Unit (List JVal × List Event)
  | [] => .ok ([], [])
  | p :: rest => do
    let (p', evs) ← repairProfile p
    let (rest', evs') ← repairProfiles rest
    return (p' :: rest', evs ++ evs')

/-- Steps 1-2 of `initializeConfig` plus serialization: validate/repair
the template and produce the final document text together with the
warnings reported along the way.  `Except.error` models an uncaught
`TypeError` inside the repair map, absorbed by the function's outer
`catch`. -/
def initializeConfigCore (template : String) : Except Unit (String × List Event) := do
  let (pt0, evs0) : JVal × List Event :=
    match jsonParse template with
    | some j => (j, [])
    | none => (defaultConfigStructure, [⟨.warn, "Invalid JSON provided in template."⟩])
  let (pt1, evs1) : JVal × List Event :=
    if pt0.truthy then (pt0, [])
    else (defaultConfigStructure, [⟨.warn, "Provided template was empty or invalid."⟩])
  match getProp pt1 "profiles" with
  | some (.jsList (p :: ps)) => do
    let (ps', evs2) ← repairProfiles (p :: ps)
    let pt2 := setProp pt1 "profiles" (.jsList ps')
    return (jsonStringify pt2, evs0 ++ evs1 ++ evs2)
  | _ =>
    -- missing, non-array or empty `profiles`: inject the default ones.
    -- On a non-object `pt1` the assignment is a silent no-op (non-strict
    -- mode), so a primitive template text survives unchanged.
    let pt2 := setProp pt1 "profiles" defaultProfiles
    return (jsonStringify pt2, evs0 ++ evs1 ++ [⟨.warn, "Invalid or missing profiles array in template."⟩])

/-- `initializeConfig(filePath, template, templateData, monitoringFn)`
over an explicit filesystem state.  All failures — bad template JSON, a
thrown `TypeError` during repair, a failing write inside `ensureSetup`
— are reported as events and absorbed; the function always returns a
state/event pair. -/
def initializeConfig (filePath template : String) (templateData : List (String × String))
    (fs : FS) (writeFails : Bool) : FS × List Event :=
  match initializeConfigCore template with
  | .error _ => (fs, [⟨.error, "Error initializing configuration file."⟩])
  | .ok (finalTemplate, evs) =>
    let homeDir := pathDirname filePath
    let fileName := pathBasename filePath
    let r := ensureSetup homeDir [.file fileName finalTemplate templateData] fs writeFails
    (r.1, evs ++ r.2.1 ++ [⟨.info, "Configuration file created successfully."⟩])

/-! ### mergeData (utils.js lines 420-422) -/

/-- Object spread `\x7b...a, ...b\x7d`: later keys override earlier ones
in place. -/
def objAssign (a b : List (String × JVal)) : List (String × JVal) :=
  b.foldl (fun acc kv => setKey acc kv.1 kv.2) a

/-- `mergeData(intrinsic, implicit, explicit, given)` — the four-way
shallow spread merge. -/
def mergeData (intrinsic implicit explicit given : Settings) : Settings :=
  objAssign (objAssign (objAssign intrinsic implicit) explicit) given

/-! ### wrapAndRun (index.js lines 143-374) -/

/-- The orchestration flags and inputs of `wrapAndRun`'s `setupData`
after merging with its defaults.  `showDebugMessages`, `configTemplate`
and `outputDirBlueprint` only feed external collaborators (console
output, the config-file write, the output-dir scaffold) and are not
needed by any claim, so they are omitted from the model. -/
structure SetupData where
  useOutputDir : Bool
  useSessionControl : Bool
  useConfig : Bool
  useHelp : Bool
  argsDictionary : List Descriptor
  intrinsicDefaults : Settings

/-- The built-in `--help|--h` descriptor. -/
def helpDescriptor : Descriptor :=
  ⟨"Help", .regex ⟨["help", "h"], none⟩, "Displays information about the program.", false⟩

/-- The built-in `--init_config|--ic` descriptor. -/
def initConfigDescriptor : Descriptor :=
  ⟨"Configuration File Initialization", .regex ⟨["init_config", "ic"], none⟩,
   "Initializes an empty configuration file.", false⟩

/-- The built-in `--config_profile=...|--cp=...` descriptor. -/
def configProfileDescriptor : Descriptor :=
  ⟨"Configuration Profile Selection", .regex ⟨["config_profile", "cp"], some .any⟩,
   "Loads default data from a configuration profile.", false⟩

/-- The built-in mandatory `--output_dir=...|--od=...` descriptor. -/
def outputDirDescriptor : Descriptor :=
  ⟨"Output directory", .regex ⟨["output_dir", "od"], some .any⟩,
   "The working directory for the program.", true⟩

/-- The final dictionary `wrapAndRun` parses with: the caller's
descriptors followed by the built-ins enabled by the flags. -/
def wrapDict (sd : SetupData) : List Descriptor :=
  sd.argsDictionary ++
    (if sd.useHelp then [helpDescriptor] else []) ++
    (if sd.useConfig then [initConfigDescriptor, configProfileDescriptor] else []) ++
    (if sd.useOutputDir then [outputDirDescriptor] else [])

/-- Outcome of the promise `wrapAndRun` returns: resolved with an exit
value, forever pending (an executor path that returns without calling
`resolve`), or never settled because the async executor threw. -/
inductive Outcome where
  | resolved (n : Nat)
  | pending
  | thrown
deriving DecidableEq, Repr

/-- Result of the mandatory-argument loop (index.js lines 272-284).
`payload.source` is `undefined` for a string payload, and the source
match is `null` for a groupless pattern; either way the key derivation
throws, which escapes the promise executor (`crash`).  Otherwise the
canonical key is the first alias of the first capturing group, and the
first key without a truthy merged value aborts (`missing`). -/
inductive MandResult where
  | ok
  | missing (name : String)
  | crash
deriving DecidableEq, Repr

/-- The mandatory-argument loop over the dictionary. -/
def mandScan : List Descriptor → Settings → MandResult
  | [], _ => .ok
  | d :: rest, merged =>
    if d.mandatory then
      match d.payload with
      | .lit _ => .crash
      | .regex p =>
        match p.aliases with
        | [] => .crash
        | a :: _ => if truthy (lookupKey merged a) then mandScan rest merged else .missing a
    else mandScan rest merged

/-- The "Mandatory argument ... is missing." error message. -/
def mandMsg (a : String) : String := "Mandatory argument " ++ a ++ " is missing."

/-- Steps 4-6 of `wrapAndRun`: load the default profile, load the
selected profile when `--config_profile` was given, and merge the four
data sources. -/
def wrapMerged (sd : SetupData) (cfg : ReadResult) (cmd : Settings) : Settings :=
  let dict := wrapDict sd
  let defaultProfileData :=
    (if sd.useConfig then (getConfigData cfg (.jsStr "default") dict).1 else some []).getD []
  let specifiedProfileData :=
    (if sd.useConfig && truthy (lookupKey cmd "config_profile") then
       (getConfigData cfg ((lookupKey cmd "config_profile").getD .jsNull) dict).1
     else some []).getD []
  mergeData sd.intrinsicDefaults defaultProfileData specifiedProfileData cmd

/-- `wrapAndRun(setupData, mainFn, ...)` as a pure function of: the
setup, the command-line tokens, the configuration-file read result, the
validity of the output directory (`fs.existsSync` + `isDirectory`), the
session-lock availability, and the user callback.  The returned pair is
the promise outcome and the events reported through the monitoring
sink.  The `--help` branch prints to the console and returns without
resolving (`pending`); the `--init_config` branch resolves `1`; a
mandatory-scan crash propagates out of the async executor (`thrown`). -/
def wrapAndRun (sd : SetupData) (tokens : List String) (cfg : ReadResult)
    (outputDirValid sessionFree : Bool) (mainFn : Settings → Nat) :
    Outcome × List Event :=
  let dict := wrapDict sd
  let ga := getArguments dict [] tokens
  match ga.1 with
  | none => (.resolved 2, ga.2 ++ [⟨.error, "Failed reading program arguments."⟩])
  | some cmd =>
    if sd.useHelp && truthy (lookupKey cmd "help") then (.pending, ga.2)
    else if sd.useConfig && truthy (lookupKey cmd "init_config") then
      (.resolved 1, ga.2 ++ [⟨.debug, "Configuration file initialized."⟩])
    else
      let ev2 := (if sd.useConfig then getConfigData cfg (.jsStr "default") dict
                  else (some [], [])).2
      let ev3 := (if sd.useConfig && truthy (lookupKey cmd "config_profile") then
                    getConfigData cfg ((lookupKey cmd "config_profile").getD .jsNull) dict
                  else (some [], [])).2
      let merged := wrapMerged sd cfg cmd
      let evs := ga.2 ++ ev2 ++ ev3
      match mandScan dict merged with
      | .crash => (.thrown, evs)
      | .missing a => (.resolved 2, evs ++ [⟨.error, mandMsg a⟩])
      | .ok =>
        if sd.useOutputDir && !(truthy (lookupKey merged "output_dir") && outputDirValid) then
          (.resolved 2, evs ++ [⟨.error, "Provided output directory is invalid."⟩])
        else if sd.useOutputDir && sd.useSessionControl && !sessionFree then
          (.resolved 2, evs ++ [⟨.error, "Session is already active for the directory."⟩])
        else
          (.resolved (mainFn merged), evs)

/-! ### Association-list lemmas -/

theorem lookupKey_setKey {α : Type} (l : List (String × α)) (k : String) (v : α)
    (k' : String) :
    lookupKey (setKey l k v) k' = if k = k' then some v else lookupKey l k' := by
  induction l with
  | nil =>
    by_cases h : k = k' <;> simp [setKey, lookupKey, h]
  | cons kv t ih =>
    obtain ⟨k₀, v₀⟩ := kv
    by_cases h0 : k₀ = k
    · subst h0
      by_cases h : k₀ = k' <;> simp [setKey, lookupKey, h]
    · by_cases h : k₀ = k'
      · subst h
        have hne : ¬k = k₀ := fun hh => h0 hh.symm
        simp [setKey, lookupKey, h0, hne]
      · simp [setKey, lookupKey, h0, h, ih]

theorem setKey_idem {α : Type} (l : List (String × α)) (k : String) (v : α) :
    setKey (setKey l k v) k v = setKey l k v := by
  induction l with
  | nil => simp [setKey]
  | cons kv t ih =>
    obtain ⟨k₀, v₀⟩ := kv
    by_cases h0 : k₀ = k
    · simp [setKey, h0]
    · simp [setKey, h0, ih]

theorem lookupKey_append {α : Type} (l₁ l₂ : List (String × α)) (k : String) :
    lookupKey (l₁ ++ l₂) k =
      (match lookupKey l₁ k with
       | some v => some v
       | none => lookupKey l₂ k) := by
  induction l₁ with
  | nil => simp [lookupKey]
  | cons kv t ih =>
    obtain ⟨k₀, v₀⟩ := kv
    by_cases h : k₀ = k <;> simp [lookupKey, h, ih]

theorem lookupKey_eq_none_of_not_mem {α : Type} (l : List (String × α)) (k : String)
    (h : k ∉ l.map Prod.fst) : lookupKey l k = none := by
  induction l with
  | nil => rfl
  | cons kv t ih =>
    obtain ⟨k₀, v₀⟩ := kv
    simp only [List.map_cons, List.mem_cons] at h
    push_neg at h
    have hne : ¬k₀ = k := fun hh => h.1 hh.symm
    simp [lookupKey, hne, ih h.2]

/-- JavaScript `a !== undefined ? a : b` on option values, used to state
the merge-precedence property. -/
def oor {α : Type} (a b : Option α) : Option α :=
  match a with
  | some v => some v
  | none => b

theorem lookupKey_objAssign (a b : Settings) (k : String) :
    lookupKey (objAssign a b) k = oor (lookupKey b.reverse k) (lookupKey a k) := by
  induction b generalizing a with
  | nil => simp [objAssign, lookupKey, oor]
  | cons kv t ih =>
    obtain ⟨k₀, v₀⟩ := kv
    have step : objAssign a ((k₀, v₀) :: t) = objAssign (setKey a k₀ v₀) t := rfl
    rw [step, ih, List.reverse_cons, lookupKey_append, lookupKey_setKey]
    cases hx : lookupKey t.reverse k with
    | some v => simp [oor]
    | none =>
      by_cases h : k₀ = k <;> simp [oor, lookupKey, h]

/-- The keys of a JavaScript object are pairwise distinct. -/
def keysNodup (l : Settings) : Prop := (l.map Prod.fst).Nodup

theorem lookupKey_reverse_of_nodup (l : Settings) (k : String) (h : keysNodup l) :
    lookupKey l.reverse k = lookupKey l k := by
  induction l with
  | nil => rfl
  | cons kv t ih =>
    obtain ⟨k₀, v₀⟩ := kv
    simp only [keysNodup, List.map_cons, List.nodup_cons] at h
    rw [List.reverse_cons, lookupKey_append, ih h.2]
    by_cases hk : k₀ = k
    · subst hk
      rw [lookupKey_eq_none_of_not_mem t k₀ h.1]
      simp [lookupKey]
    · cases hx : lookupKey t k with
      | some v => simp [lookupKey, hk, hx]
      | none => simp [lookupKey, hk, hx]

/-! ### Claim C8 — mergeData precedence -/

/-- **C8.** `mergeData(intrinsic, implicit, explicit, given)` is a flat
shallow-override merge: for every key, the result holds the value of
the last source containing the key — the command-line value when all
four sources have it, the intrinsic value when only the intrinsic
defaults have it, and any key present in some source is present in the
result. -/
theorem mergeData_shallow_override (intrinsic implicit explicit given : Settings)
    (k : String) (h₁ : keysNodup implicit) (h₂ : keysNodup explicit)
    (h₃ : keysNodup given) :
    lookupKey (mergeData intrinsic implicit explicit given) k =
      oor (lookupKey given k)
        (oor (lookupKey explicit k)
          (oor (lookupKey implicit k) (lookupKey intrinsic k))) := by
  unfold mergeData
  rw [lookupKey_objAssign, lookupKey_objAssign, lookupKey_objAssign,
      lookupKey_reverse_of_nodup given k h₃, lookupKey_reverse_of_nodup explicit k h₂,
      lookupKey_reverse_of_nodup implicit k h₁]

/-- Witness for C8 at concrete data: the CLI value wins for a key in all
four sources, and an intrinsic-only key survives. -/
theorem mergeData_shallow_override_witness :
    (keysNodup [(("shared" : String), JVal.jsStr "cfgD")] ∧
      keysNodup [(("shared" : String), JVal.jsStr "cfgN")] ∧
      keysNodup [(("shared" : String), JVal.jsStr "cli")]) ∧
    lookupKey (mergeData [("shared", JVal.jsStr "base"), ("only", JVal.jsStr "keep")]
        [("shared", JVal.jsStr "cfgD")] [("shared", JVal.jsStr "cfgN")]
        [("shared", JVal.jsStr "cli")]) "shared" =
      oor (lookupKey [(("shared" : String), JVal.jsStr "cli")] "shared")
        (oor (lookupKey [(("shared" : String), JVal.jsStr "cfgN")] "shared")
          (oor (lookupKey [(("shared" : String), JVal.jsStr "cfgD")] "shared")
            (lookupKey [(("shared" : String), JVal.jsStr "base"), ("only", JVal.jsStr "keep")] "shared"))) :=
  ⟨⟨by simp [keysNodup], by simp [keysNodup], by simp [keysNodup]⟩,
   mergeData_shallow_override [("shared", JVal.jsStr "base"), ("only", JVal.jsStr "keep")]
     [("shared", JVal.jsStr "cfgD")] [("shared", JVal.jsStr "cfgN")] [("shared", JVal.jsStr "cli")]
     "shared" (by simp [keysNodup]) (by simp [keysNodup]) (by simp [keysNodup])⟩

/-! ### Claim C7 — first unmatched token is fatal, otherwise total -/

theorem matchToken_eq_none_iff (dict : List Descriptor) (t : String) :
    matchToken dict t = none ↔ ∀ d ∈ dict, matchDescriptor d.payload t = none := by
  induction dict with
  | nil => simp [matchToken]
  | cons d rest ih =>
    cases hd : matchDescriptor d.payload t with
    | some kv => simp [matchToken, hd]
    | none => simp [matchToken, hd, ih]

theorem gaGo_eq_none_iff (dict : List Descriptor) (tokens : List String) (acc : Settings) :
    (gaGo dict tokens acc).1 = none ↔
      ∃ t ∈ tokens, ¬t = "" ∧ ∀ d ∈ dict, matchDescriptor d.payload t = none := by
  induction tokens generalizing acc with
  | nil => simp [gaGo]
  | cons arg rest ih =>
    by_cases harg : arg = ""
    · subst harg
      simp [gaGo, ih]
    · have harg' : (arg == "") = false := by simpa using harg
      cases hmt : matchToken dict arg with
      | none =>
        have hall := (matchToken_eq_none_iff dict arg).1 hmt
        simp only [gaGo, harg', Bool.false_eq_true, if_false, hmt]
        simp only [List.mem_cons]
        constructor
        · intro _
          exact ⟨arg, Or.inl rfl, harg, hall⟩
        · intro _
          trivial
      | some kv =>
        simp only [gaGo, harg', Bool.false_eq_true, if_false, hmt]
        rw [ih]
        constructor
        · rintro ⟨t, htmem, htne, hall⟩
          exact ⟨t, List.mem_cons_of_mem _ htmem, htne, hall⟩
        · rintro ⟨t, htmem, htne, hall⟩
          rcases List.mem_cons.1 htmem with h | h
          · subst h
            rw [← matchToken_eq_none_iff] at hall
            rw [hall] at hmt
            exact absurd hmt (by simp)
          · exact ⟨t, h, htne, hall⟩

/-- **C7.** `getArguments` returns the failure value `null` exactly when
some non-empty token matches no descriptor — regardless of the token's
position and of how many earlier tokens matched; when every non-empty
token matches some descriptor it returns a settings mapping. -/
theorem getArguments_fails_iff_unmatched_token (dict : List Descriptor)
    (defaults : Settings) (tokens : List String) :
    (getArguments dict defaults tokens).1 = none ↔
      ∃ t ∈ tokens, ¬t = "" ∧ ∀ d ∈ dict, matchDescriptor d.payload t = none :=
  gaGo_eq_none_iff dict tokens defaults

/-! ### Facts about the regex matcher -/

theorem exists_of_findSome? {α β : Type} {f : α → Option β} {l : List α} {b : β}
    (h : l.findSome? f = some b) : ∃ a ∈ l, f a = some b := by
  obtain ⟨l₁, a, l₂, hl, hfa, -⟩ := List.findSome?_eq_some_iff.1 h
  exact ⟨a, by simp [hl], hfa⟩

theorem regexMatch_mem {p : RegexPayload} {t a : String} {v : Option String}
    (h : regexMatch p t = some (a, v)) : a ∈ p.aliases := by
  unfold regexMatch at h
  cases hv : p.value? with
  | none =>
    rw [hv] at h
    cases hf : p.aliases.find? (fun x => t == "--" ++ x) with
    | none => rw [hf] at h; simp at h
    | some a' =>
      rw [hf] at h
      simp only [Option.map_some'] at h
      obtain ⟨ha, -⟩ := Prod.mk.injEq .. ▸ Option.some.injEq .. ▸ h
      exact ha ▸ List.mem_of_find?_eq_some hf
  | some vs =>
    rw [hv] at h
    obtain ⟨a', ha'mem, hfa⟩ := exists_of_findSome? h
    cases hs : splitEq a' t with
    | none => rw [hs] at hfa; simp at hfa
    | some vv =>
      simp only [hs] at hfa
      by_cases hok : valueOK vs vv = true
      · rw [if_pos hok] at hfa
        obtain ⟨ha, -⟩ := Prod.mk.injEq .. ▸ Option.some.injEq .. ▸ hfa
        exact ha ▸ ha'mem
      · rw [if_neg hok] at hfa; cases hfa

theorem splitEq_data {a tok v : String} (h : splitEq a tok = some v) :
    tok.data = ("--" ++ a ++ "=").data ++ v.data := by
  unfold splitEq at h
  cases hc : chopLead ("--" ++ a ++ "=").data tok.data with
  | none => rw [hc] at h; simp at h
  | some r =>
    rw [hc] at h
    simp only [Option.map_some'] at h
    have hv : v = String.mk r := (Option.some.injEq .. ▸ h).symm
    rw [hv]
    exact chopLead_sound hc

theorem regexMatch_tok_ne_empty {p : RegexPayload} {t a : String} {v : Option String}
    (h : regexMatch p t = some (a, v)) : ¬t = "" := by
  intro ht
  subst ht
  unfold regexMatch at h
  cases hv : p.value? with
  | none =>
    rw [hv] at h
    cases hf : p.aliases.find? (fun x => "" == "--" ++ x) with
    | none => rw [hf] at h; simp at h
    | some a' =>
      have hp := List.find?_some hf
      have : ("" : String) = "--" ++ a' := by simpa using hp
      have := congrArg (fun s => s.data.length) this
      simp [String.data_append] at this
  | some vs =>
    rw [hv] at h
    obtain ⟨a', -, hfa⟩ := exists_of_findSome? h
    cases hs : splitEq a' "" with
    | none => rw [hs] at hfa; simp at hfa
    | some vv =>
      have := congrArg List.length (splitEq_data hs)
      simp [String.data_append] at this

/-! ### Claim C2 — canonical key of a regex match -/

theorem matchToken_append_none (pre l : List Descriptor) (t : String)
    (h : ∀ d ∈ pre, matchDescriptor d.payload t = none) :
    matchToken (pre ++ l) t = matchToken l t := by
  induction pre with
  | nil => rfl
  | cons d ps ih =>
    have hd := h d (List.mem_cons_self d ps)
    simp only [List.cons_append, matchToken, hd]
    exact ih (fun x hx => h x (List.mem_cons_of_mem d hx))

/-- **C2.** For a regex-payload descriptor and a token it matches (the
descriptor being the first match in dictionary order), `getArguments`
stores the argument under the canonical key: the first alternative of
the first capturing group when that group's text is an alternation, and
otherwise the text captured by the first group verbatim. -/
theorem getArguments_stores_canonical_key (pre rest : List Descriptor)
    (nm dc : String) (m : Bool) (defaults : Settings) (t : String)
    (p : RegexPayload) (a : String) (v : Option String)
    (hpre : ∀ d ∈ pre, matchDescriptor d.payload t = none)
    (hm : regexMatch p t = some (a, v)) :
    (getArguments (pre ++ ⟨nm, .regex p, dc, m⟩ :: rest) defaults [t]).1 =
      some (setKey defaults
        (if 1 < p.aliases.length then p.aliases.headD "" else a) (jsArgValue v)) := by
  have hmem : a ∈ p.aliases := regexMatch_mem hm
  have hne : ¬t = "" := regexMatch_tok_ne_empty hm
  have hne' : (t == "") = false := by simpa using hne
  have hkey : p.aliases.headD a =
      (if 1 < p.aliases.length then p.aliases.headD "" else a) := by
    cases hl : p.aliases with
    | nil => rw [hl] at hmem; cases hmem
    | cons x xs =>
      cases xs with
      | nil =>
        rw [hl] at hmem
        have : a = x := by simpa using hmem
        simp [this]
      | cons y ys => simp
  have hmt : matchToken (pre ++ ⟨nm, .regex p, dc, m⟩ :: rest) t =
      some (p.aliases.headD a, jsArgValue v) := by
    rw [matchToken_append_none pre _ t hpre]
    simp [matchToken, matchDescriptor, hm]
  simp only [getArguments, gaGo, hne', Bool.false_eq_true, if_false, hmt, hkey]

/-- Witness for C2: the documented scenario — descriptor
`/^--(version|v)$/`, token `--v` — stores `version := true` (the short
alias collapses to the first-listed long form). -/
theorem getArguments_stores_canonical_key_witness :
    ((∀ d ∈ ([] : List Descriptor), matchDescriptor d.payload "--v" = none) ∧
      regexMatch ⟨["version", "v"], none⟩ "--v" = some ("v", none)) ∧
    (getArguments ([] ++ ⟨"Version", .regex ⟨["version", "v"], none⟩, "", false⟩ :: [])
        [] ["--v"]).1 =
      some (setKey []
        (if 1 < (["version", "v"] : List String).length then
          (["version", "v"] : List String).headD "" else "v") (jsArgValue none)) :=
  ⟨⟨fun d hd => absurd hd (List.not_mem_nil d), rfl⟩,
   getArguments_stores_canonical_key [] [] "Version" "" false [] "--v"
     ⟨["version", "v"], none⟩ "v" none (fun d hd => absurd hd (List.not_mem_nil d)) rfl⟩

/-! ### Claim C3 — two-group payloads never match a config key -/

theorem keyMatchesPayload_two_group (p : RegexPayload) (hv : p.value?.isSome = true)
    (key : String) : keyMatchesPayload key (.regex p) = false := by
  obtain ⟨vs, hvs⟩ := Option.isSome_iff_exists.1 hv
  cases hm : regexMatch p ("--" ++ key) with
  | none => simp [keyMatchesPayload, hm]
  | some av =>
    have hgoal : keyMatchesPayload key (.regex p) = (av.1 == key) := by
      simp [keyMatchesPayload, hm]
    rw [hgoal]
    unfold regexMatch at hm
    rw [hvs] at hm
    obtain ⟨a', ha'mem, hfa⟩ := exists_of_findSome? hm
    cases hs : splitEq a' ("--" ++ key) with
    | none => rw [hs] at hfa; simp at hfa
    | some vv =>
      simp only [hs] at hfa
      by_cases hok : valueOK vs vv = true
      · rw [if_pos hok] at hfa
        have hav : av = (a', some vv) := (Option.some.injEq .. ▸ hfa).symm
        subst hav
        by_cases hak : a' = key
        · exfalso
          have hd := splitEq_data hs
          rw [hak] at hd
          have hlen := congrArg List.length hd
          simp [String.data_append] at hlen
        · simpa using hak
      · rw [if_neg hok] at hfa; cases hfa

theorem processSettings_no_match (dict : List Descriptor)
    (entries : List (String × JVal)) (acc : Settings)
    (h : ∀ key, dict.find? (fun d => keyMatchesPayload key d.payload) = none) :
    (processSettings dict entries acc).1 = acc := by
  induction entries with
  | nil => rfl
  | cons kv rest ih =>
    obtain ⟨key, value⟩ := kv
    simp only [processSettings, h key]
    exact ih

theorem getConfigData_some_all_unknown (file : ReadResult) (pn : JVal)
    (dict : List Descriptor) (res : Settings) (evs : List Event)
    (h : ∀ key, dict.find? (fun d => keyMatchesPayload key d.payload) = none)
    (hres : getConfigData file pn dict = (some res, evs)) : res = [] := by
  unfold getConfigData at hres
  repeat' split at hres
  all_goals try simp only at hres
  all_goals rw [Prod.mk.injEq] at hres
  all_goals try exact Option.noConfusion hres.1
  rw [← Option.some.inj hres.1]
  exact processSettings_no_match dict _ [] h

/-- **C3.** A two-capturing-group payload (one that only matches tokens
containing `=value`) never matches `getConfigData`'s synthetic token
`--key` for any profile key, so every setting addressed at such a
descriptor is skipped as unknown (with a warning event) and the
returned mapping of a dictionary holding only that descriptor never
contains any key. -/
theorem getConfigData_skips_two_group_descriptor (p : RegexPayload)
    (key nm dc : String) (m : Bool) (file : ReadResult) (profileName : JVal)
    (res : Settings) (evs : List Event)
    (hv : p.value?.isSome = true)
    (hres : getConfigData file profileName [⟨nm, .regex p, dc, m⟩] = (some res, evs)) :
    keyMatchesPayload key (.regex p) = false ∧ lookupKey res key = none := by
  have hall : ∀ k, keyMatchesPayload k (.regex p) = false :=
    keyMatchesPayload_two_group p hv
  have hfind : ∀ k,
      List.find? (fun d => keyMatchesPayload k d.payload)
        ([⟨nm, .regex p, dc, m⟩] : List Descriptor) = none := by
    intro k
    simp [List.find?, hall k]
  have hempty : res = [] := getConfigData_some_all_unknown file profileName _ res evs hfind hres
  exact ⟨hall key, by simp [hempty, lookupKey]⟩

/-- Concrete document for the C3 witness. -/
def c3doc : String :=
  "\x7b\"profiles\":[\x7b\"name\":\"p\",\"settings\":\x7b\"output_dir\":\"x\"\x7d\x7d]\x7d"

/-- Witness for C3: the `--output_dir=...` descriptor, a profile whose
settings contain `output_dir`, and the evaluated rejection. -/
theorem getConfigData_skips_two_group_descriptor_witness :
    (((⟨["output_dir", "od"], some .any⟩ : RegexPayload).value?.isSome = true) ∧
      getConfigData (.content c3doc) (.jsStr "p")
          [⟨"Output directory", .regex ⟨["output_dir", "od"], some .any⟩, "", false⟩] =
        (some [], [⟨.warn, "Ignoring unknown setting."⟩])) ∧
    (keyMatchesPayload "output_dir" (.regex ⟨["output_dir", "od"], some .any⟩) = false ∧
      lookupKey ([] : Settings) "output_dir" = none) :=
  ⟨⟨rfl, rfl⟩,
   getConfigData_skips_two_group_descriptor ⟨["output_dir", "od"], some .any⟩
     "output_dir" "Output directory" "" false (.content c3doc) (.jsStr "p") [] _ rfl rfl⟩

/-! ### populateTemplate identity on placeholder-free text -/

/-- Whether the character list contains an occurrence of two adjacent
opening braces (the start of a placeholder). -/
def hasDouble : List Char → Bool
  | [] => false
  | c :: rest => (c == '\x7b' && rest.head? == some '\x7b') || hasDouble rest

theorem popGo_no_double (data : List (String × String)) (fuel : Nat) :
    ∀ cs, hasDouble cs = false → popGo data fuel cs = cs := by
  induction fuel with
  | zero => intro cs _; rfl
  | succ n ih =>
    intro cs h
    cases cs with
    | nil => rfl
    | cons c rest =>
      simp only [hasDouble, Bool.or_eq_false_iff] at h
      calc popGo data (n + 1) (c :: rest) = c :: popGo data n rest := by
            simp [popGo, h.1]
        _ = c :: rest := by rw [ih rest h.2]

theorem populateTemplate_no_double (s : String) (data : List (String × String))
    (h : hasDouble s.data = false) : populateTemplate s data = s := by
  unfold populateTemplate
  rw [popGo_no_double data _ s.data h]

/-! ### initializeConfig write/failure lemmas -/

theorem esGo_single_file (hd fn tmpl : String) (dd : List (String × String)) (fs : FS) :
    (esGo hd false [.file fn tmpl dd] fs).1.files =
      setKey fs.files (pathJoin hd fn) (populateTemplate tmpl dd) := by
  by_cases hmk : fsExists fs (pathDirname (pathJoin hd fn)) <;>
    simp [esGo, hmk]

theorem initializeConfig_ok_files (p t : String) (d : List (String × String)) (fs : FS)
    (c : String) (evs : List Event) (h : initializeConfigCore t = .ok (c, evs)) :
    ((initializeConfig p t d fs false).1).files =
      setKey fs.files (pathJoin (pathDirname p) (pathBasename p)) (populateTemplate c d) := by
  simp only [initializeConfig, h, ensureSetup, sortContent, insertByPath]
  exact esGo_single_file (pathDirname p) (pathBasename p) c d fs

theorem initializeConfig_write_failure (p t : String) (d : List (String × String)) (fs : FS) :
    ((initializeConfig p t d fs true).1).files = fs.files ∧
      ((initializeConfig p t d fs true).2).any (fun e => e.type == EvType.error) = true := by
  cases h : initializeConfigCore t with
  | error u => simp [initializeConfig, h]
  | ok ce =>
    obtain ⟨c, evs⟩ := ce
    constructor
    · simp only [initializeConfig, h, ensureSetup, sortContent, insertByPath]
      by_cases hmk : fsExists fs (pathDirname (pathJoin (pathDirname p) (pathBasename p))) <;>
        simp [esGo, hmk]
    · simp only [initializeConfig, h, ensureSetup, sortContent, insertByPath]
      by_cases hmk : fsExists fs (pathDirname (pathJoin (pathDirname p) (pathBasename p))) <;>
        simp [esGo, hmk, List.any_append]

/-! ### Claim C9 — invalid template JSON defaults; errors absorbed -/

set_option maxRecDepth 16384 in
/-- **C9.** Given the template `"not json"`, `initializeConfig` reports a
warning and persists exactly the pretty-printed built-in default
document (one profile named `default_profile` with two placeholder
settings), for every template data and filesystem state; and when the
underlying file write throws, the error is reported through the sink
and absorbed — the function still returns, leaving the files
unchanged. -/
theorem initializeConfig_invalid_json_defaults :
    (∀ (data : List (String × String)) (fs : FS),
      lookupKey ((initializeConfig "home/app.config" "not json" data fs false).1).files
          "home/app.config" = some (jsonStringify defaultConfigStructure) ∧
        ((initializeConfig "home/app.config" "not json" data fs false).2).any
          (fun e => e.type == EvType.warn) = true) ∧
    (∀ (p t : String) (d : List (String × String)) (fs : FS),
      ((initializeConfig p t d fs true).1).files = fs.files ∧
        ((initializeConfig p t d fs true).2).any (fun e => e.type == EvType.error) = true) := by
  constructor
  · intro data fs
    have hcore : initializeConfigCore "not json" =
        .ok (jsonStringify defaultConfigStructure,
             [⟨.warn, "Invalid JSON provided in template."⟩]) := rfl
    constructor
    · rw [initializeConfig_ok_files "home/app.config" "not json" data fs _ _ hcore]
      rw [lookupKey_setKey]
      have hpj : pathJoin (pathDirname "home/app.config") (pathBasename "home/app.config") =
          "home/app.config" := rfl
      rw [if_pos hpj]
      rw [populateTemplate_no_double _ data (by rfl)]
    · simp [initializeConfig, hcore]
  · exact initializeConfig_write_failure

/-! ### Claim C10 — init is idempotent on the persisted bytes -/

/-- **C10.** Running `initializeConfig` twice with the same path, template
and data leaves exactly the same file contents as running it once: the
second call overwrites the configuration file with byte-identical
content (and touches nothing else). -/
theorem initializeConfig_idempotent (p t : String) (d : List (String × String)) (fs : FS) :
    ((initializeConfig p t d (initializeConfig p t d fs false).1 false).1).files =
      ((initializeConfig p t d fs false).1).files := by
  cases h : initializeConfigCore t with
  | error u => simp [initializeConfig, h]
  | ok ce =>
    obtain ⟨c, evs⟩ := ce
    rw [initializeConfig_ok_files p t d ((initializeConfig p t d fs false).1) c evs h,
        initializeConfig_ok_files p t d fs c evs h, setKey_idem]

/-! ### Claim C6 — a primitive JSON template escapes the repair -/

/-- **C6 (counter-evidence).** With the template `"5"` — valid JSON, but a
primitive — the non-strict property assignment
`parsedTemplate.profiles = ...` is a silent no-op, so the persisted
document is the bare text `5`: it has no `profiles` array at all,
violating the Configuration Document invariant the claim asserts. -/
theorem initializeConfig_numeric_template_bug :
    ((initializeConfig "home/cfg.json" "5" [] ⟨[], []⟩ false).1).files =
        [("home/cfg.json", "5")] ∧
      jsonParse "5" = some (.jsInt 5) ∧
      getProp (.jsInt 5) "profiles" = none :=
  ⟨rfl, rfl, rfl⟩

/-! ### Claim C1 — enum-constrained values are rejected even when valid -/

/-- Concrete configuration document for C1: a profile whose settings hold
`parseModel: "saasFile"`, a value inside the descriptor's enumerated
set. -/
def c1doc : String :=
  "\x7b\"profiles\":[\x7b\"name\":\"p\",\"settings\":\x7b\"parseModel\":\"saasFile\"\x7d\x7d]\x7d"

/-- **C1 (counter-evidence).** With descriptor
`/^--(parseModel)=(saasFile|raw)$/` and the in-set value `"saasFile"`,
`getConfigData` still omits `parseModel` from the returned mapping: the
descriptor lookup tests the synthetic token `--parseModel`, which a
two-group payload never matches, so the setting is rejected as an
unknown key (with a warning) instead of being accepted. -/
theorem getConfigData_rejects_valid_enum_value :
    (getConfigData (.content c1doc) (.jsStr "p")
        [⟨"Parse Model", .regex ⟨["parseModel"], some (.enum ["saasFile", "raw"])⟩,
          "", false⟩]).1 = some [] ∧
      (getConfigData (.content c1doc) (.jsStr "p")
        [⟨"Parse Model", .regex ⟨["parseModel"], some (.enum ["saasFile", "raw"])⟩,
          "", false⟩]).2 = [⟨.warn, "Ignoring unknown setting."⟩] :=
  ⟨rfl, rfl⟩

/-! ### Claim C5 — early exits for --help and --init_config -/

/-- **C5 (counter-evidence for the help half, confirmation of the
init-config half).** With `useHelp` enabled and the `--h` token, the
help branch returns from the promise executor without resolving, so the
promise never yields any value — in particular not the expected-early-
exit value `1` the claim (and the function's own JSDoc) promises.  The
`--ic` branch does resolve `1` before any profile loading or merging. -/
theorem wrapAndRun_help_never_resolves :
    (wrapAndRun ⟨false, false, false, true, [], []⟩ ["--h"] .enoent true true
        (fun _ => 0)).1 = .pending ∧
      (wrapAndRun ⟨false, false, false, true, [], []⟩ ["--h"] .enoent true true
        (fun _ => 0)).1 ≠ .resolved 1 ∧
      (wrapAndRun ⟨false, false, true, false, [], []⟩ ["--ic"] .enoent true true
        (fun _ => 0)).1 = .resolved 1 :=
  ⟨rfl, by decide, rfl⟩

/-! ### Claim C4 — mandatory validation after merging -/

/-- **C4 (counter-evidence).** A mandatory descriptor whose payload is a
string literal makes the key derivation `payload.source.match(...)`
throw (`payload.source` is `undefined`), so the promise executor throws
instead of reporting the missing argument and resolving the fatal value
`2`. -/
theorem wrapAndRun_string_mandatory_throws :
    (wrapAndRun ⟨false, false, false, false, [⟨"X", .lit "--x", "", true⟩], []⟩ []
        .enoent true true (fun _ => 0)).1 = .thrown ∧
      (wrapAndRun ⟨false, false, false, false, [⟨"X", .lit "--x", "", true⟩], []⟩ []
        .enoent true true (fun _ => 0)).1 ≠ .resolved 2 :=
  ⟨rfl, by decide⟩

/-- **C4 (amended).** After merging, for regex-payload mandatory
descriptors the canonical key is the first alias of the payload's first
capturing group, and the first such key without a truthy merged value
makes `wrapAndRun` report an error event and resolve the fatal exit
value `2` — for every user callback, which therefore never runs. -/
theorem wrapAndRun_missing_mandatory_aborts (sd : SetupData) (tokens : List String)
    (cfg : ReadResult) (odv sf : Bool) (mainFn : Settings → Nat) (cmd : Settings)
    (a : String)
    (h1 : (getArguments (wrapDict sd) [] tokens).1 = some cmd)
    (h2 : (sd.useHelp && truthy (lookupKey cmd "help")) = false)
    (h3 : (sd.useConfig && truthy (lookupKey cmd "init_config")) = false)
    (h4 : mandScan (wrapDict sd) (wrapMerged sd cfg cmd) = .missing a) :
    (wrapAndRun sd tokens cfg odv sf mainFn).1 = .resolved 2 ∧
      Event.mk .error (mandMsg a) ∈ (wrapAndRun sd tokens cfg odv sf mainFn).2 := by
  refine ⟨?_, ?_⟩ <;>
    simp [wrapAndRun, h1, h2, h3, h4, List.mem_append]

/-- Witness for the amended C4: `useOutputDir` pushes the mandatory
`--output_dir=...` descriptor; with no tokens and no config the merged
result lacks `output_dir`, and the pipeline resolves `2` with the
error event. -/
theorem wrapAndRun_missing_mandatory_aborts_witness :
    ((getArguments (wrapDict ⟨true, false, false, false, [], []⟩) [] []).1 = some [] ∧
      ((⟨true, false, false, false, [], []⟩ : SetupData).useHelp &&
        truthy (lookupKey [] "help")) = false ∧
      ((⟨true, false, false, false, [], []⟩ : SetupData).useConfig &&
        truthy (lookupKey [] "init_config")) = false ∧
      mandScan (wrapDict ⟨true, false, false, false, [], []⟩)
        (wrapMerged ⟨true, false, false, false, [], []⟩ .enoent []) =
          .missing "output_dir") ∧
    ((wrapAndRun ⟨true, false, false, false, [], []⟩ [] .enoent true true
        (fun _ => 0)).1 = .resolved 2 ∧
      Event.mk .error (mandMsg "output_dir") ∈
        (wrapAndRun ⟨true, false, false, false, [], []⟩ [] .enoent true true
          (fun _ => 0)).2) :=
  ⟨⟨rfl, rfl, rfl, rfl⟩,
   wrapAndRun_missing_mandatory_aborts ⟨true, false, false, false, [], []⟩ [] .enoent
     true true (fun _ => 0) [] "output_dir" rfl rfl rfl rfl⟩

end CliPrimer
